import Mathlib

/-!
Verification of the market-making core: order-book synchronization, the
rolling trade window and the adaptive market maker, shallowly embedded from
the Rust sources (`order_book_state.rs`, `recent_trades.rs`,
`market_maker/mod.rs`).

Modelling conventions:
* `rust_decimal::Decimal` values are modelled as rationals (`ℚ`); the
  decimal literals of the source (`dec!(0.3)`, `dec!(0.05)`, ...) become the
  corresponding rational literals.
* `DateTime<Utc>` timestamps are modelled as integers (milliseconds); the
  ambient clock `Utc::now()` becomes an explicit `now` parameter.
* A `BTreeMap<Price, Size>` ladder is modelled as an association list sorted
  by strictly ascending price, so `first_key_value` is `List.head?` and
  `last_key_value` is `List.getLast?`.
* A Rust method taking `&mut self` and returning `Result<T>` becomes a
  function returning the updated state paired with `Except String T`; the
  state component is the receiver as mutated when the method returns.
* A `Decimal` division panics on a zero divisor; in the depth-based derived
  queries this possibility is made explicit through `decDiv`, whose
  `Except.error` result marks the panic.  In the top-of-book helpers
  (`spread`/`mid_price`/`imbalance`) the divisor is the mid price or a sum
  of volumes of present levels, and plain rational division is used.
-/

abbrev Price := ℚ
abbrev Size := ℚ

/-- Division of `Decimal` values: panics (modelled as `Except.error`) on a
zero divisor, otherwise exact. -/
def decDiv (a b : ℚ) : Except String ℚ :=
  if b = 0 then Except.error ("Division by zero") else Except.ok (a / b)

/-- Model of `Decimal::checked_div`: `None` on a zero divisor. -/
def checked_div (a b : ℚ) : Option ℚ :=
  if b = 0 then none else some (a / b)

/-- Model of `BTreeMap::insert` on an ascending association list: replaces
the value when the key is present, otherwise inserts keeping the order. -/
def mapInsert (p : Price) (v : Size) : List (Price × Size) → List (Price × Size)
  | [] => [(p, v)]
  | (q, w) :: rest =>
    if p < q then (p, v) :: (q, w) :: rest
    else if p = q then (p, v) :: rest
    else (q, w) :: mapInsert p v rest

/-- Model of `BTreeMap::remove`: drops the entry with the given key, a
no-op when the key is absent. -/
def mapRemove (p : Price) : List (Price × Size) → List (Price × Size)
  | [] => []
  | (q, w) :: rest => if p = q then rest else (q, w) :: mapRemove p rest

/-- Key lookup in the association-list ladder. -/
def mapLookup (p : Price) : List (Price × Size) → Option Size
  | [] => none
  | (q, w) :: rest => if p = q then some w else mapLookup p rest

/-- `OfferData` from `binance/data/depth_update.rs`. -/
structure OfferData where
  price : Price
  size : Size
deriving DecidableEq

/-- `DepthUpdate` from `binance/data/depth_update.rs`. -/
structure DepthUpdate where
  event_time : ℤ
  symbol : String
  first_update_id : ℕ
  final_update_id : ℕ
  bids : List OfferData
  asks : List OfferData
deriving DecidableEq

/-- `DepthSnapshot` from `binance/data/depth_update.rs`. -/
structure DepthSnapshot where
  last_update_id : ℕ
  bids : List OfferData
  asks : List OfferData
deriving DecidableEq

/-- `OrderBookState` from `order_book_state.rs`: the two ladders, the
sequence watermark, and the cached derived metrics. -/
structure OrderBookState where
  bids : List (Price × Size)
  asks : List (Price × Size)
  last_update_id : ℕ
  last_update_time : ℤ
  spread : Option ℚ
  relative_spread : Option ℚ
  mid_price : Option ℚ
  imbalance : Option ℚ
  weighted_imbalance : Option ℚ
  best_bid : Option (Price × Size)
  best_ask : Option (Price × Size)
deriving DecidableEq

/-- `OrderBookState::default()` (`#[derive(Default)]`). -/
def OrderBookState.default : OrderBookState :=
  { bids := [], asks := [], last_update_id := 0, last_update_time := 0,
    spread := none, relative_spread := none, mid_price := none,
    imbalance := none, weighted_imbalance := none,
    best_bid := none, best_ask := none }

/-- The private method `fn spread(&self)` (named apart from the cache field
`spread`, which Lean cannot overload). -/
def OrderBookState.spread_calc (s : OrderBookState) : Option ℚ :=
  match s.bids.getLast?, s.asks.head? with
  | some top_bid, some top_ask => some (top_ask.1 - top_bid.1)
  | _, _ => none

/-- The private method `fn relative_spread(&self)`. -/
def OrderBookState.relative_spread_calc (s : OrderBookState) : Option ℚ :=
  match s.bids.getLast?, s.asks.head? with
  | some top_bid, some top_ask =>
    some ((top_ask.1 - top_bid.1) / ((top_bid.1 + top_ask.1) / 2))
  | _, _ => none

/-- The method `fn mid_price(&self)`. -/
def OrderBookState.mid_price_calc (s : OrderBookState) : Option ℚ :=
  match s.bids.getLast?, s.asks.head? with
  | some top_bid, some top_ask => some ((top_bid.1 + top_ask.1) / 2)
  | _, _ => none

/-- The method `fn imbalance(&self)`: top-of-book
`(bid_vol - ask_vol) / (bid_vol + ask_vol)`. -/
def OrderBookState.imbalance_calc (s : OrderBookState) : Option ℚ :=
  match s.bids.getLast?, s.asks.head? with
  | some top_bid, some top_ask =>
    some ((top_bid.2 - top_ask.2) / (top_bid.2 + top_ask.2))
  | _, _ => none

/-- `OrderBookState::apply_snapshot`: clears both ladders, inserts every
level with positive size, and advances the watermark.  The cached metric
fields are not touched by the source and are carried over unchanged. -/
def OrderBookState.apply_snapshot (s : OrderBookState) (snapshot : DepthSnapshot)
    (now : ℤ) : OrderBookState :=
  let bids := snapshot.bids.foldl
    (fun m o => if 0 < o.size then mapInsert o.price o.size m else m) []
  let asks := snapshot.asks.foldl
    (fun m o => if 0 < o.size then mapInsert o.price o.size m else m) []
  { s with bids := bids, asks := asks,
           last_update_id := snapshot.last_update_id,
           last_update_time := now }

/-- One `(price, size)` change of `apply_update_changes`: positive size
upserts the level, zero (or negative) size removes it if present. -/
def applyDiff (m : List (Price × Size)) (o : OfferData) : List (Price × Size) :=
  if 0 < o.size then mapInsert o.price o.size m else mapRemove o.price m

/-- `OrderBookState::apply_update_changes`: applies every bid and ask
change, advances the watermark and event time, then recomputes all cached
metrics from the new ladders.  The source always returns `Ok(())`. -/
def OrderBookState.apply_update_changes (s : OrderBookState) (update : DepthUpdate) :
    OrderBookState × Except String Unit :=
  let s1 := { s with bids := update.bids.foldl applyDiff s.bids,
                     asks := update.asks.foldl applyDiff s.asks,
                     last_update_id := update.final_update_id,
                     last_update_time := update.event_time }
  ({ s1 with spread := s1.spread_calc,
             relative_spread := s1.relative_spread_calc,
             mid_price := s1.mid_price_calc,
             imbalance := s1.imbalance_calc,
             best_bid := s1.bids.getLast?,
             best_ask := s1.asks.head? }, Except.ok ())

/-- The error message built by the sequence-gap branch of `process_update`. -/
def gapMessage (localId firstId finalId : ℕ) : String :=
  "Update sequence gap detected. Local: " ++ toString localId ++
    ", Update: [" ++ toString firstId ++ ", " ++ toString finalId ++ "]"

/-- `OrderBookState::process_update`: silently ignores stale updates,
fails (leaving the book untouched) on a sequence gap, otherwise applies
the changes. -/
def OrderBookState.process_update (s : OrderBookState) (update : DepthUpdate) :
    OrderBookState × Except String Unit :=
  if update.final_update_id ≤ s.last_update_id then (s, Except.ok ())
  else if s.last_update_id + 1 < update.first_update_id then
    (s, Except.error
      (gapMessage s.last_update_id update.first_update_id update.final_update_id))
  else s.apply_update_changes update

/-- `OrderBookState::process_buffer`: drains the queued updates, skipping
stale ones and failing on the first bootstrap gap. -/
def OrderBookState.process_buffer (s : OrderBookState) :
    List DepthUpdate → OrderBookState × Except String Unit
  | [] => (s, Except.ok ())
  | update :: rest =>
    if update.final_update_id ≤ s.last_update_id then s.process_buffer rest
    else if update.first_update_id ≤ s.last_update_id + 1 then
      match s.apply_update_changes update with
      | (s1, Except.ok _) => s1.process_buffer rest
      | (s1, Except.error e) => (s1, Except.error e)
    else (s, Except.error ("Out of sequence update during initial buffering"))

/-- `OrderBookState::imbalance_depth`: sums the top `depth` volumes per
side; the source divides by the combined volume with no guard. -/
def OrderBookState.imbalance_depth (s : OrderBookState) (depth : ℕ) :
    Except String (Option ℚ) :=
  let bids := ((s.bids.reverse.map Prod.snd).take depth).sum
  let asks := ((s.asks.map Prod.snd).take depth).sum
  (decDiv (bids - asks) (bids + asks)).map some

/-- The harmonically weighted volume sum of `weighted_relative_imbalance`:
the level of rank `i` gets weight `1 / (i + 1)`. -/
def weightedSum (vols : List ℚ) : ℚ :=
  (vols.enum.map (fun iv => iv.2 * (1 / ((iv.1 : ℚ) + 1)))).sum

/-- `OrderBookState::weighted_relative_imbalance`: harmonic-decay weighted
imbalance over the top `depth` levels, `None` for depth 0 or zero total. -/
def OrderBookState.weighted_relative_imbalance (s : OrderBookState) (depth : ℕ) :
    Except String (Option ℚ) :=
  if depth = 0 then Except.ok none
  else
    let weighted_bid := weightedSum ((s.bids.reverse.map Prod.snd).take depth)
    let weighted_ask := weightedSum ((s.asks.map Prod.snd).take depth)
    let total := weighted_bid + weighted_ask
    if total = 0 then Except.ok none
    else Except.ok (some ((weighted_bid - weighted_ask) / total))

/-- `iter().nth(depth - 1)` on a `usize` depth: for `depth = 0` the
subtraction wraps around and the lookup falls off the end of the ladder. -/
def nthKey (l : List (Price × Size)) (depth : ℕ) : Option Price :=
  if depth = 0 then none else (l.get? (depth - 1)).map Prod.fst

/-- `OrderBookState::relative_imbalance_vwap`: `None` when the requested
depth exceeds the levels available on either side, otherwise the
volume-weighted average price of the top `depth` levels per side. -/
def OrderBookState.relative_imbalance_vwap (s : OrderBookState) (depth : ℕ) :
    Except String (Option (ℚ × ℚ)) :=
  if min s.bids.length s.asks.length < depth then Except.ok none
  else
    let bids := s.bids.reverse.take depth
    let asks := s.asks.take depth
    match decDiv ((bids.map (fun pv => pv.1 * pv.2)).sum) ((bids.map Prod.snd).sum) with
    | Except.error e => Except.error e
    | Except.ok bid_vwap =>
      match decDiv ((asks.map (fun pv => pv.1 * pv.2)).sum) ((asks.map Prod.snd).sum) with
      | Except.error e => Except.error e
      | Except.ok ask_vwap => Except.ok (some (bid_vwap, ask_vwap))

/-- The private method `fn best_bid(&self)`. -/
def OrderBookState.best_bid_calc (s : OrderBookState) : Option Price :=
  s.bids.getLast?.map Prod.fst

/-- The private method `fn best_ask(&self)`. -/
def OrderBookState.best_ask_calc (s : OrderBookState) : Option Price :=
  s.asks.head?.map Prod.fst

/-- `OrderBookState::relative_book_imbalance`: distance of each side's
VWAP from its best price, normalized by the best-to-worst price span. -/
def OrderBookState.relative_book_imbalance (s : OrderBookState) (depth : ℕ) :
    Except String (Option ℚ) :=
  match s.best_bid_calc, nthKey s.bids.reverse depth,
        s.best_ask_calc, nthKey s.asks depth with
  | some best_bid, some worst_bid, some best_ask, some worst_ask =>
    (match s.relative_imbalance_vwap depth with
     | Except.error e => Except.error e
     | Except.ok none => Except.ok none
     | Except.ok (some vwaps) =>
       match decDiv (best_bid - vwaps.1) (best_bid - worst_bid) with
       | Except.error e => Except.error e
       | Except.ok bid_weighted =>
         match decDiv (best_ask - vwaps.2) (best_ask - worst_ask) with
         | Except.error e => Except.error e
         | Except.ok ask_weighted =>
           Except.ok (some ((bid_weighted - ask_weighted) * 100)))
  | _, _, _, _ => Except.ok none

/-- `OrderBookState::relative_mid_price_imbalance`: distance of each
side's VWAP from the mid price, normalized by the mid price. -/
def OrderBookState.relative_mid_price_imbalance (s : OrderBookState) (depth : ℕ) :
    Except String (Option ℚ) :=
  match s.mid_price_calc with
  | none => Except.ok none
  | some mid_price =>
    match s.relative_imbalance_vwap depth with
    | Except.error e => Except.error e
    | Except.ok none => Except.ok none
    | Except.ok (some vwaps) =>
      match decDiv (mid_price - vwaps.1) mid_price with
      | Except.error e => Except.error e
      | Except.ok bid_weighted =>
        match decDiv (mid_price - vwaps.2) mid_price with
        | Except.error e => Except.error e
        | Except.ok ask_weighted =>
          Except.ok (some ((bid_weighted - ask_weighted) * 100))

/-- Model of `Decimal::ceil`: rounds toward positive infinity to an
integer value. -/
def decCeil (q : ℚ) : ℤ :=
  if q.den = 1 then q.num else q.num / (q.den : ℤ) + 1

/-- Model of `Decimal::sqrt` (`MathematicalOps`): `None` on a negative
input, otherwise a square-root approximation.  `Rat.sqrt` agrees with the
source exactly at `0` and at the perfect squares arising in the theorems
below; elsewhere both are approximations of the same real value. -/
def sqrtD (q : ℚ) : Option ℚ :=
  if q < 0 then none else some (Rat.sqrt q)

/-- `Trade` from `recent_trades.rs`. -/
structure Trade where
  price : ℚ
  quantity : ℚ
  trade_time : ℤ
  buyer_market_maker : Bool
  num_trades : ℕ
deriving DecidableEq

/-- `RecentTrades` from `recent_trades.rs`: the rolling window of
(trade, period-return) pairs, newest at the head of the list. -/
structure RecentTrades where
  trades : List (Trade × ℚ)
  window_size : ℕ
  volatility : Option ℚ
deriving DecidableEq

/-- `RecentTrades::new`. -/
def RecentTrades.new (window_size : ℕ) : RecentTrades :=
  { trades := [], window_size := window_size, volatility := none }

/-- `RecentTrades::calculate_returns`: period return of the arriving trade
relative to the current front, `0` for an empty buffer (and, through
`checked_div`, for a zero previous price). -/
def RecentTrades.calculate_returns (s : RecentTrades) (trade : Trade) : ℚ :=
  match s.trades.head? with
  | some prev => (checked_div (trade.price - prev.1.price) prev.1.price).getD 0
  | none => 0

/-- `RecentTrades::calculate_volatility`: `None` below 2 trades; otherwise
the square root of the mean squared deviation of the most recent
`min(count, ceil(0.3 * window_size))` returns from the mean of all
buffered returns, using the sub-window count as divisor.  The `Decimal`
division by `recent_count` can only be a division by zero when
`window_size = 0`; plain rational division is used here and the theorems
below assume a positive window. -/
def RecentTrades.calculate_volatility (s : RecentTrades) : Option ℚ :=
  let total_trades := s.trades.length
  if total_trades < 2 then none
  else
    let mean := (s.trades.map Prod.snd).sum / (total_trades : ℚ)
    let recent_window : ℤ := decCeil ((s.window_size : ℚ) * (3 / 10))
    let recent_count : ℤ := min (total_trades : ℤ) recent_window
    let variance :=
      ((s.trades.take recent_count.toNat).map (fun tr => (tr.2 - mean) ^ 2)).sum
        / (recent_count : ℚ)
    sqrtD variance

/-- `RecentTrades::update`: computes the return against the current front,
evicts the back entry when the buffer is exactly at capacity, pushes the
new pair at the front and eagerly recomputes the volatility. -/
def RecentTrades.update (s : RecentTrades) (trade : Trade) : RecentTrades :=
  let returns := s.calculate_returns trade
  let popped := if s.trades.length = s.window_size then s.trades.dropLast else s.trades
  let s1 := { s with trades := (trade, returns) :: popped }
  { s1 with volatility := s1.calculate_volatility }

/-- `RecentTrades::update_many`. -/
def RecentTrades.update_many (s : RecentTrades) (trades : List Trade) : RecentTrades :=
  trades.foldl RecentTrades.update s

/-- `RecentTrades::price_movement`: relative price change between the
newest trade and the trade `n` positions back. -/
def RecentTrades.price_movement (s : RecentTrades) (over_recent_trades : ℕ) : Option ℚ :=
  if s.trades.length < over_recent_trades then none
  else
    match s.trades.head?, s.trades.get? (over_recent_trades - 1) with
    | some latest, some earlier =>
      checked_div (latest.1.price - earlier.1.price) earlier.1.price
    | _, _ => none

/-- `MarketMakerConfig` from `market_maker/mod.rs`. -/
structure MarketMakerConfig where
  base_k : ℚ
  order_size : ℚ
  max_active_orders : ℕ
  strong_imbalance_threshold : ℚ
  moderate_imbalance_threshold : ℚ
  vol_dampening : ℚ
  learning_rate : ℚ
  min_distance_pct : ℚ
deriving DecidableEq

/-- `MarketMakerConfig::default()`. -/
def MarketMakerConfig.default : MarketMakerConfig :=
  { base_k := 1 / 2, order_size := 1 / 100, max_active_orders := 3,
    strong_imbalance_threshold := -(7 / 10),
    moderate_imbalance_threshold := -(3 / 10),
    vol_dampening := 4 / 5, learning_rate := 1 / 20,
    min_distance_pct := 1 / 20 }

/-- `OrderStatus` from `market_maker/mod.rs`. -/
inductive OrderStatus where
  | New
  | Placed
  | Filled
  | Cancelled
deriving DecidableEq

/-- `Order` from `market_maker/mod.rs`. -/
structure Order where
  id : String
  price : ℚ
  size : ℚ
  status : OrderStatus
  created_at : ℤ
  filled_at : Option ℤ
  reference_mid : ℚ
  reference_best_bid : ℚ
  k_factor_used : ℚ
  imbalance_at_placement : ℚ
deriving DecidableEq

/-- `MarketMaker` from `market_maker/mod.rs`. -/
structure MarketMaker where
  config : MarketMakerConfig
  order_book : OrderBookState
  recent_trades : RecentTrades
  active_orders : List Order
  filled_orders : List Order
  cancelled_orders : List Order
  current_k : ℚ
  successful_fill_count : ℕ
  attempt_count : ℕ
  last_imbalance : ℚ
  last_volatility : ℚ
  last_update_time : ℤ
  debug_mode : Bool
deriving DecidableEq

/-- `MarketMaker::new`. -/
def MarketMaker.new (config : MarketMakerConfig) (order_book : OrderBookState)
    (recent_trades : RecentTrades) (now : ℤ) : MarketMaker :=
  { config := config, order_book := order_book, recent_trades := recent_trades,
    active_orders := [], filled_orders := [], cancelled_orders := [],
    current_k := config.base_k, successful_fill_count := 0, attempt_count := 0,
    last_imbalance := 0, last_volatility := 0,
    last_update_time := now, debug_mode := true }

/-- `MarketMaker::adjust_k_factor`: a success multiplies `k` by
`1 - learning_rate` with floor `0.1`, a failure by `1 + learning_rate`
with cap `3.0`. -/
def MarketMaker.adjust_k_factor (mm : MarketMaker) (was_successful : Bool) : MarketMaker :=
  if was_successful then
    { mm with current_k := max (mm.current_k * (1 - mm.config.learning_rate)) (1 / 10) }
  else
    { mm with current_k := min (mm.current_k * (1 + mm.config.learning_rate)) 3 }

/-- `MarketMaker::check_order_fills`: for a buyer-is-market-maker trade,
every active `Placed` order with `trade.price <= order.price` is collected
as filled.  The detection loop increments `successful_fill_count` once per
filled order; the follow-up adjustment block increments it once more and
relaxes the k-factor; the removal loop then moves the filled orders (in
reverse index order) into `filled_orders` with a fill timestamp. -/
def MarketMaker.check_order_fills (mm : MarketMaker) (trade : Trade) (now : ℤ) :
    MarketMaker × Except String Unit :=
  if trade.buyer_market_maker then
    let filled_idx := (mm.active_orders.enum.filter
      (fun io => io.2.status == OrderStatus.Placed
        && decide (trade.price ≤ io.2.price))).map Prod.fst
    let mm1 := { mm with
      successful_fill_count := mm.successful_fill_count + filled_idx.length }
    let mm2 := if filled_idx.isEmpty then mm1
      else ({ mm1 with
        successful_fill_count := mm1.successful_fill_count + 1 }).adjust_k_factor true
    let mm3 := filled_idx.reverse.foldl (fun m idx =>
      match m.active_orders.get? idx with
      | some order =>
        { m with active_orders := m.active_orders.eraseIdx idx,
                 filled_orders := m.filled_orders ++
                   [{ order with status := OrderStatus.Filled, filled_at := some now }] }
      | none => m) mm2
    (mm3, Except.ok ())
  else (mm, Except.ok ())

/-- `MarketMaker::manage_existing_orders`: with a best bid present, marks
for cancellation every active order whose relative distance from the best
bid is above `0.01 * k_factor_used * 5` or below `min_distance_pct * 0.5`;
one cancellation tightens the k-factor once; the removal loop then moves
the cancelled orders into `cancelled_orders`. -/
def MarketMaker.manage_existing_orders (mm : MarketMaker) :
    MarketMaker × Except String Unit :=
  match mm.order_book.best_bid with
  | none => (mm, Except.ok ())
  | some bb =>
    let cancel_idx := (mm.active_orders.enum.filter (fun io =>
      let percent_distance := (bb.1 - io.2.price) / bb.1
      decide ((1 / 100 : ℚ) * io.2.k_factor_used * 5 < percent_distance)
        || decide (percent_distance < mm.config.min_distance_pct * (1 / 2)))).map Prod.fst
    let mm1 := if cancel_idx.isEmpty then mm else mm.adjust_k_factor false
    let mm2 := cancel_idx.reverse.foldl (fun m idx =>
      match m.active_orders.get? idx with
      | some order =>
        { m with active_orders := m.active_orders.eraseIdx idx,
                 cancelled_orders := m.cancelled_orders ++
                   [{ order with status := OrderStatus.Cancelled }] }
      | none => m) mm1
    (mm2, Except.ok ())

/-- `MarketMaker::place_order`: appends a new `Placed` order recording the
reference prices, the k-factor used and the imbalance at placement. -/
def MarketMaker.place_order (mm : MarketMaker) (price size reference_mid
    reference_best_bid k_factor_used : ℚ) (now : ℤ) :
    MarketMaker × Except String Unit :=
  let order : Order :=
    { id := "order-" ++ toString now, price := price, size := size,
      status := OrderStatus.Placed, created_at := now, filled_at := none,
      reference_mid := reference_mid, reference_best_bid := reference_best_bid,
      k_factor_used := k_factor_used, imbalance_at_placement := mm.last_imbalance }
  ({ mm with active_orders := mm.active_orders ++ [order] }, Except.ok ())

/-- `MarketMaker::place_stink_bids`: skipped at the active-order cap, on
missing market data or negligible volatility; otherwise derives a
regime-adjusted k, computes the discounted bid price with a floor distance
from the best bid, and places it when the discount lies in [0.01%, 5%]. -/
def MarketMaker.place_stink_bids (mm : MarketMaker) (now : ℤ) :
    MarketMaker × Except String Unit :=
  if mm.config.max_active_orders ≤ mm.active_orders.length then (mm, Except.ok ())
  else
    match mm.order_book.mid_price, mm.order_book.best_bid, mm.order_book.best_ask with
    | some mid_price, some bb, some _ba =>
      let volatility := mm.last_volatility
      if volatility < 1 / 100000000 then (mm, Except.ok ())
      else
        let imbalance_adjusted_k :=
          if mm.last_imbalance < mm.config.strong_imbalance_threshold then
            mm.current_k * (1 / 2)
          else if mm.last_imbalance < mm.config.moderate_imbalance_threshold then
            mm.current_k
          else if mm.last_imbalance < 3 / 10 then mm.current_k * (3 / 2)
          else mm.current_k * (5 / 2)
        let price_volatility := volatility * mid_price
        let min_price_distance := bb.1 * mm.config.min_distance_pct
        let raw_stink_bid_price := mid_price - imbalance_adjusted_k * price_volatility
        let stink_bid_price :=
          if bb.1 - raw_stink_bid_price < min_price_distance then
            bb.1 - min_price_distance
          else raw_stink_bid_price
        let discount_pct := (mid_price - stink_bid_price) / mid_price * 100
        if (1 / 100 : ℚ) ≤ discount_pct ∧ discount_pct ≤ 5 then
          match mm.place_order stink_bid_price mm.config.order_size mid_price bb.1
              imbalance_adjusted_k now with
          | (mm1, Except.ok _) =>
            ({ mm1 with attempt_count := mm1.attempt_count + 1 }, Except.ok ())
          | (mm1, Except.error e) => (mm1, Except.error e)
        else (mm, Except.ok ())
    | _, _, _ => (mm, Except.ok ())

/-- `MarketMaker::handle_depth_update`: forwards to
`OrderBookState::process_update` (propagating its error), refreshes the
last-known imbalance from the cache, then manages existing orders and
places new stink bids. -/
def MarketMaker.handle_depth_update (mm : MarketMaker) (update : DepthUpdate)
    (now : ℤ) : MarketMaker × Except String Unit :=
  match mm.order_book.process_update update with
  | (ob, Except.error e) => ({ mm with order_book := ob }, Except.error e)
  | (ob, Except.ok _) =>
    let mm1 := { mm with order_book := ob }
    let mm2 := match mm1.order_book.imbalance with
      | some imbalance => { mm1 with last_imbalance := imbalance }
      | none => mm1
    match mm2.manage_existing_orders with
    | (mm3, Except.error e) => (mm3, Except.error e)
    | (mm3, Except.ok _) => mm3.place_stink_bids now

/-- `MarketMaker::handle_trade`: inserts the trade into the rolling
window, refreshes the dampened volatility, then checks for fills. -/
def MarketMaker.handle_trade (mm : MarketMaker) (trade : Trade) (now : ℤ) :
    MarketMaker × Except String Unit :=
  let mm1 := { mm with recent_trades := mm.recent_trades.update trade }
  let mm2 := match mm1.recent_trades.volatility with
    | some vol => { mm1 with last_volatility := vol * mm1.config.vol_dampening }
    | none => mm1
  mm2.check_order_fills trade now

/-- The cached metric fields of a book state agree with the values
recomputed from its ladders. -/
def cacheConsistent (s : OrderBookState) : Prop :=
  s.spread = s.spread_calc ∧
  s.relative_spread = s.relative_spread_calc ∧
  s.mid_price = s.mid_price_calc ∧
  s.imbalance = s.imbalance_calc ∧
  s.best_bid = s.bids.getLast? ∧
  s.best_ask = s.asks.head?

/-- Contiguity of an update sequence: each `first_update_id` continues the
previous `final_update_id` (starting from the given watermark) by exactly
one. -/
def chainFromB : ℕ → List DepthUpdate → Bool
  | _, [] => true
  | lid, u :: rest =>
    (u.first_update_id == lid + 1) && chainFromB u.final_update_id rest

/-- Applying updates one by one through `process_update`, stopping at the
first error (the caller's `?` operator). -/
def processUpdates (s : OrderBookState) : List DepthUpdate → OrderBookState × Except String Unit
  | [] => (s, Except.ok ())
  | u :: rest =>
    match s.process_update u with
    | (s1, Except.ok _) => processUpdates s1 rest
    | (s1, Except.error e) => (s1, Except.error e)

/-- Every level present in a ladder has strictly positive size. -/
def posLadder (m : List (Price × Size)) : Prop := ∀ pv ∈ m, 0 < pv.2

/-- Both ladders of a book state satisfy `posLadder`. -/
def posBook (s : OrderBookState) : Prop := posLadder s.bids ∧ posLadder s.asks

/-- One externally driven book operation. -/
inductive BookOp where
  | snapshot (snap : DepthSnapshot) (now : ℤ)
  | update (u : DepthUpdate)
  | buffer (us : List DepthUpdate)

/-- Runs a sequence of book operations, keeping the state a failed call
left behind. -/
def runOps (s : OrderBookState) : List BookOp → OrderBookState
  | [] => s
  | op :: rest =>
    runOps (match op with
      | BookOp.snapshot snap now => s.apply_snapshot snap now
      | BookOp.update u => (s.process_update u).1
      | BookOp.buffer us => (s.process_buffer us).1) rest

/-- Modelled from the claim's words: the sample standard deviation of a
list of returns, with mean and divisor (`n - 1`) taken over that same
list. -/
def sampleStdDev (l : List ℚ) : Option ℚ :=
  let mean := l.sum / (l.length : ℚ)
  sqrtD ((l.map (fun r => (r - mean) ^ 2)).sum / ((l.length : ℚ) - 1))

/-- The quantity `calculate_volatility` actually takes the square root of:
the mean squared deviation of the most recent
`min(count, ceil(0.3 * window))` returns from the mean of all buffered
returns, divided by the sub-window count. -/
def recentMeanSquaredDeviation (returns : List ℚ) (window : ℕ) : ℚ :=
  let mean := returns.sum / (returns.length : ℚ)
  let recent_count : ℤ := min (returns.length : ℤ) (decCeil ((window : ℚ) * (3 / 10)))
  ((returns.take recent_count.toNat).map (fun r => (r - mean) ^ 2)).sum
    / (recent_count : ℚ)

/-- A trade at the given price (the other fields are irrelevant to the
window computations). -/
def tradeAt (p : ℚ) : Trade :=
  { price := p, quantity := 1, trade_time := 0, buyer_market_maker := false,
    num_trades := 1 }

/-- The snapshot of the spec's order-book scenario. -/
def snapC1 : DepthSnapshot :=
  { last_update_id := 1000,
    bids := [{ price := 100, size := 1 }, { price := 99, size := 2 }],
    asks := [{ price := 101, size := 1 }, { price := 102, size := 2 }] }

/-- The book right after applying `snapC1` to a fresh state. -/
def bookC1 : OrderBookState := OrderBookState.default.apply_snapshot snapC1 0

/-- The diff of the spec's order-book scenario: removes the bid at 100. -/
def updC1 : DepthUpdate :=
  { event_time := 5, symbol := "BTCUSDT", first_update_id := 1001,
    final_update_id := 1001, bids := [{ price := 100, size := 0 }], asks := [] }

/-- A fresh book whose watermark was moved to 100 (the spec's gap scenario). -/
def bookGap : OrderBookState :=
  { OrderBookState.default with last_update_id := 100 }

/-- An update opening a sequence gap over `bookGap`. -/
def updGap : DepthUpdate :=
  { event_time := 6, symbol := "BTCUSDT", first_update_id := 102,
    final_update_id := 103, bids := [{ price := 100, size := 1 }], asks := [] }

/-- A stale update relative to `bookGap`. -/
def updStale : DepthUpdate :=
  { event_time := 7, symbol := "BTCUSDT", first_update_id := 95,
    final_update_id := 99, bids := [{ price := 1, size := 1 }], asks := [] }

/-- A fresh book with watermark 10, start of the contiguous chain below. -/
def bookC4 : OrderBookState :=
  { OrderBookState.default with last_update_id := 10 }

/-- A contiguous two-update chain continuing watermark 10. -/
def updsC4 : List DepthUpdate :=
  [{ event_time := 1, symbol := "S", first_update_id := 11, final_update_id := 12,
     bids := [{ price := 100, size := 1 }], asks := [{ price := 101, size := 2 }] },
   { event_time := 2, symbol := "S", first_update_id := 13, final_update_id := 14,
     bids := [{ price := 99, size := 3 }], asks := [] }]

/-- A book with one level per side. -/
def bookC5 : OrderBookState :=
  { OrderBookState.default with bids := [(10, 1)], asks := [(11, 3)] }

/-- Four trades with a constant 10 percent period return into a window of
size 10. -/
def rtC6 : RecentTrades :=
  (RecentTrades.new 10).update_many
    [tradeAt 100, tradeAt 110, tradeAt 121, tradeAt (1331 / 10)]

/-- The spec's trade-window scenario: six prices into a window of 5. -/
def rtC7 : RecentTrades :=
  (RecentTrades.new 5).update_many
    [tradeAt 100, tradeAt 101, tradeAt 99, tradeAt 100, tradeAt 102, tradeAt 98]

/-- Two trades into a window of size 0. -/
def rtC7zero : RecentTrades :=
  (RecentTrades.new 0).update_many [tradeAt 100, tradeAt 101]

/-- An active placed stink bid at price 100. -/
def ordC8 : Order :=
  { id := "order-1", price := 100, size := 1 / 100, status := OrderStatus.Placed,
    created_at := 0, filled_at := none, reference_mid := 105,
    reference_best_bid := 101, k_factor_used := 1 / 2,
    imbalance_at_placement := 0 }

/-- A market maker holding exactly the one active order `ordC8`, with the
default configuration (`base_k = 0.5`, `learning_rate = 0.05`). -/
def mmC8 : MarketMaker :=
  { MarketMaker.new MarketMakerConfig.default OrderBookState.default
      (RecentTrades.new 5) 0 with active_orders := [ordC8] }

/-- An aggressive sell at 90 into a resting bid (buyer is market maker). -/
def trC8 : Trade :=
  { price := 90, quantity := 1, trade_time := 3, buyer_market_maker := true,
    num_trades := 1 }

/-- A market maker whose book watermark is 100. -/
def mmC10 : MarketMaker :=
  MarketMaker.new MarketMakerConfig.default bookGap (RecentTrades.new 5) 0

/-- A short operation sequence exercising snapshot, update and buffer. -/
def opsC9 : List BookOp :=
  [BookOp.snapshot snapC1 0, BookOp.update updC1,
   BookOp.buffer [{ event_time := 8, symbol := "S", first_update_id := 1002,
                    final_update_id := 1003, bids := [{ price := 98, size := 1 }],
                    asks := [{ price := 103, size := 0 }] }]]

lemma apply_update_changes_pair (s : OrderBookState) (u : DepthUpdate) :
    s.apply_update_changes u = ((s.apply_update_changes u).1, Except.ok ()) := rfl

lemma apply_update_changes_lastId (s : OrderBookState) (u : DepthUpdate) :
    (s.apply_update_changes u).1.last_update_id = u.final_update_id := rfl

lemma process_update_stale (s : OrderBookState) (u : DepthUpdate)
    (h : u.final_update_id ≤ s.last_update_id) :
    s.process_update u = (s, Except.ok ()) := by
  unfold OrderBookState.process_update
  rw [if_pos h]

lemma process_update_gap (s : OrderBookState) (u : DepthUpdate)
    (h1 : s.last_update_id < u.final_update_id)
    (h2 : s.last_update_id + 1 < u.first_update_id) :
    s.process_update u =
      (s, Except.error
        (gapMessage s.last_update_id u.first_update_id u.final_update_id)) := by
  unfold OrderBookState.process_update
  rw [if_neg (by omega), if_pos h2]

lemma process_update_apply (s : OrderBookState) (u : DepthUpdate)
    (h1 : s.last_update_id < u.final_update_id)
    (h2 : ¬ s.last_update_id + 1 < u.first_update_id) :
    s.process_update u = s.apply_update_changes u := by
  unfold OrderBookState.process_update
  rw [if_neg (by omega), if_neg h2]

lemma cacheConsistent_apply_update_changes (s : OrderBookState) (u : DepthUpdate) :
    cacheConsistent (s.apply_update_changes u).1 :=
  ⟨rfl, rfl, rfl, rfl, rfl, rfl⟩

/-- C1: the cached metrics agree with the ladders after every
`process_update` that actually applies changes (neither stale nor a gap,
which is also the shape of every application inside `process_buffer`),
while `apply_snapshot` leaves all cached metric fields at their previous
values — in particular still `None` between the first snapshot and the
first applied update. -/
theorem C1_cache_recompute :
    (∀ (s : OrderBookState) (u : DepthUpdate),
        u.first_update_id ≤ s.last_update_id + 1 →
        s.last_update_id < u.final_update_id →
        cacheConsistent (s.process_update u).1) ∧
    (∀ (s : OrderBookState) (snap : DepthSnapshot) (now : ℤ),
        (s.apply_snapshot snap now).spread = s.spread ∧
        (s.apply_snapshot snap now).relative_spread = s.relative_spread ∧
        (s.apply_snapshot snap now).mid_price = s.mid_price ∧
        (s.apply_snapshot snap now).imbalance = s.imbalance ∧
        (s.apply_snapshot snap now).best_bid = s.best_bid ∧
        (s.apply_snapshot snap now).best_ask = s.best_ask) := by
  constructor
  · intro s u h1 h2
    rw [process_update_apply s u h2 (by omega)]
    exact cacheConsistent_apply_update_changes s u
  · intro s snap now
    exact ⟨rfl, rfl, rfl, rfl, rfl, rfl⟩

/-- C1 counterexample: right after `apply_snapshot` on a fresh book the
cached `mid_price` field is still `None` although the ladders are
populated and recomputing the mid price yields `100.5` — so the cached
fields do not equal the recomputed values after `apply_snapshot`. -/
theorem C1_counterexample :
    bookC1.mid_price = none ∧ bookC1.mid_price_calc = some (201 / 2) := by
  constructor
  · rfl
  · norm_num [bookC1, OrderBookState.apply_snapshot, OrderBookState.default,
      snapC1, OrderBookState.mid_price_calc, mapInsert]

/-- C1 witness: the scenario update applied on top of the snapshot leaves
a consistent cache, and a second snapshot preserves the `spread` field. -/
theorem C1_witness :
    cacheConsistent (bookC1.process_update updC1).1 ∧
    (bookC1.apply_snapshot snapC1 5).spread = bookC1.spread :=
  ⟨C1_cache_recompute.1 bookC1 updC1 (by decide) (by decide),
   (C1_cache_recompute.2 bookC1 snapC1 5).1⟩

/-- C2: an update that is not stale and opens a sequence gap makes
`process_update` fail and leaves the book state exactly unchanged. -/
theorem C2_gap_rejection (s : OrderBookState) (u : DepthUpdate)
    (h1 : s.last_update_id < u.final_update_id)
    (h2 : s.last_update_id + 1 < u.first_update_id) :
    s.process_update u =
      (s, Except.error
        (gapMessage s.last_update_id u.first_update_id u.final_update_id)) :=
  process_update_gap s u h1 h2

/-- C2 witness: watermark 100 and an update `[102, 103]` fail with the gap
error and the state is returned untouched. -/
theorem C2_witness :
    bookGap.process_update updGap = (bookGap, Except.error (gapMessage 100 102 103)) :=
  C2_gap_rejection bookGap updGap (by decide) (by decide)

/-- C3: a stale update (`final_update_id` at or below the watermark) is
silently discarded: `process_update` succeeds and the state is exactly the
input state. -/
theorem C3_stale_noop (s : OrderBookState) (u : DepthUpdate)
    (h : u.final_update_id ≤ s.last_update_id) :
    s.process_update u = (s, Except.ok ()) :=
  process_update_stale s u h

/-- C3 witness: watermark 100 and an update `[95, 99]` succeed without any
change. -/
theorem C3_witness : bookGap.process_update updStale = (bookGap, Except.ok ()) :=
  C3_stale_noop bookGap updStale (by decide)

/-- C10: when `process_update` rejects the update with a sequence gap,
`handle_depth_update` propagates the error and the whole market maker
state is unchanged. -/
theorem C10_gap_leaves_maker_unchanged (mm : MarketMaker) (u : DepthUpdate) (now : ℤ)
    (h1 : mm.order_book.last_update_id < u.final_update_id)
    (h2 : mm.order_book.last_update_id + 1 < u.first_update_id) :
    mm.handle_depth_update u now =
      (mm, Except.error
        (gapMessage mm.order_book.last_update_id u.first_update_id u.final_update_id)) := by
  unfold MarketMaker.handle_depth_update
  rw [process_update_gap mm.order_book u h1 h2]

/-- C10 witness: a market maker over the watermark-100 book given the
`[102, 103]` update fails and is returned unchanged. -/
theorem C10_witness :
    mmC10.handle_depth_update updGap 9 = (mmC10, Except.error (gapMessage 100 102 103)) :=
  C10_gap_leaves_maker_unchanged mmC10 updGap 9 (by decide) (by decide)

lemma processUpdates_eq_process_buffer (us : List DepthUpdate) :
    ∀ (c : ℕ) (s : OrderBookState), chainFromB c us = true →
      c ≤ s.last_update_id → processUpdates s us = s.process_buffer us := by
  induction us with
  | nil => intro c s _ _; rfl
  | cons u rest ih =>
    intro c s hchain hc
    simp only [chainFromB, Bool.and_eq_true, beq_iff_eq] at hchain
    obtain ⟨hfirst, hrest⟩ := hchain
    by_cases hstale : u.final_update_id ≤ s.last_update_id
    · rw [processUpdates, process_update_stale s u hstale,
        OrderBookState.process_buffer, if_pos hstale]
      exact ih u.final_update_id s hrest hstale
    · push_neg at hstale
      have hnogap : ¬ s.last_update_id + 1 < u.first_update_id := by omega
      rw [processUpdates, process_update_apply s u hstale hnogap,
        apply_update_changes_pair s u, OrderBookState.process_buffer,
        if_neg (by omega), if_pos (by omega), apply_update_changes_pair s u]
      exact ih u.final_update_id (s.apply_update_changes u).1 hrest
        (le_of_eq (apply_update_changes_lastId s u).symm)

/-- C4: for a contiguous update chain continuing the book's current
watermark, applying the updates one by one through `process_update` gives
exactly the same result as draining them in a single `process_buffer`
call. -/
theorem C4_one_by_one_eq_buffer (s : OrderBookState) (us : List DepthUpdate)
    (h : chainFromB s.last_update_id us = true) :
    processUpdates s us = s.process_buffer us :=
  processUpdates_eq_process_buffer us s.last_update_id s h le_rfl

/-- C4 witness: a concrete two-update contiguous chain over watermark 10
drains to the same state along both paths. -/
theorem C4_witness :
    chainFromB bookC4.last_update_id updsC4 = true ∧
    processUpdates bookC4 updsC4 = bookC4.process_buffer updsC4 :=
  ⟨by decide, C4_one_by_one_eq_buffer bookC4 updsC4 (by decide)⟩

lemma mem_mapInsert {p : Price} {v : Size} {pv : Price × Size} :
    ∀ m : List (Price × Size), pv ∈ mapInsert p v m → pv = (p, v) ∨ pv ∈ m := by
  intro m
  induction m with
  | nil => simp [mapInsert]
  | cons qw rest ih =>
    obtain ⟨q, w⟩ := qw
    simp only [mapInsert]
    split_ifs with h1 h2
    · simp only [List.mem_cons]; tauto
    · simp only [List.mem_cons]; tauto
    · simp only [List.mem_cons]
      rintro (h | h)
      · exact Or.inr (Or.inl h)
      · rcases ih h with h' | h'
        · exact Or.inl h'
        · exact Or.inr (Or.inr h')

lemma mem_mapRemove {p : Price} {pv : Price × Size} :
    ∀ m : List (Price × Size), pv ∈ mapRemove p m → pv ∈ m := by
  intro m
  induction m with
  | nil => simp [mapRemove]
  | cons qw rest ih =>
    obtain ⟨q, w⟩ := qw
    simp only [mapRemove]
    split_ifs with h1
    · exact fun h => List.mem_cons_of_mem _ h
    · simp only [List.mem_cons]
      rintro (h | h)
      · exact Or.inl h
      · exact Or.inr (ih h)

lemma mapRemove_absent {p : Price} :
    ∀ m : List (Price × Size), mapLookup p m = none → mapRemove p m = m := by
  intro m
  induction m with
  | nil => intro _; rfl
  | cons qw rest ih =>
    obtain ⟨q, w⟩ := qw
    simp only [mapLookup, mapRemove]
    by_cases h : p = q
    · simp [h]
    · simp only [if_neg h]
      intro hl
      rw [ih hl]

lemma posLadder_nil : posLadder [] := by
  intro pv h
  simp at h

lemma posLadder_mapInsert {m : List (Price × Size)} (hm : posLadder m)
    {p : Price} {v : Size} (hv : 0 < v) : posLadder (mapInsert p v m) := by
  intro pv hpv
  rcases mem_mapInsert m hpv with h | h
  · rw [h]
    exact hv
  · exact hm pv h

lemma posLadder_mapRemove {m : List (Price × Size)} (hm : posLadder m)
    (p : Price) : posLadder (mapRemove p m) :=
  fun pv hpv => hm pv (mem_mapRemove m hpv)

lemma posLadder_applyDiff {m : List (Price × Size)} (hm : posLadder m)
    (o : OfferData) : posLadder (applyDiff m o) := by
  unfold applyDiff
  split_ifs with h
  · exact posLadder_mapInsert hm h
  · exact posLadder_mapRemove hm o.price

lemma posLadder_foldl_applyDiff :
    ∀ (os : List OfferData) (m : List (Price × Size)), posLadder m →
      posLadder (os.foldl applyDiff m) := by
  intro os
  induction os with
  | nil => exact fun m hm => hm
  | cons o rest ih =>
    intro m hm
    rw [List.foldl_cons]
    exact ih _ (posLadder_applyDiff hm o)

lemma posLadder_foldl_snapshot :
    ∀ (os : List OfferData) (m : List (Price × Size)), posLadder m →
      posLadder (os.foldl
        (fun m o => if 0 < o.size then mapInsert o.price o.size m else m) m) := by
  intro os
  induction os with
  | nil => exact fun m hm => hm
  | cons o rest ih =>
    intro m hm
    rw [List.foldl_cons]
    apply ih
    split_ifs with h
    · exact posLadder_mapInsert hm h
    · exact hm

lemma posBook_apply_snapshot (s : OrderBookState) (snap : DepthSnapshot) (now : ℤ) :
    posBook (s.apply_snapshot snap now) :=
  ⟨posLadder_foldl_snapshot snap.bids [] posLadder_nil,
   posLadder_foldl_snapshot snap.asks [] posLadder_nil⟩

lemma posBook_apply_update_changes {s : OrderBookState} (hs : posBook s)
    (u : DepthUpdate) : posBook (s.apply_update_changes u).1 :=
  ⟨posLadder_foldl_applyDiff u.bids s.bids hs.1,
   posLadder_foldl_applyDiff u.asks s.asks hs.2⟩

lemma posBook_process_update {s : OrderBookState} (hs : posBook s)
    (u : DepthUpdate) : posBook (s.process_update u).1 := by
  unfold OrderBookState.process_update
  split_ifs with h1 h2
  · exact hs
  · exact hs
  · exact posBook_apply_update_changes hs u

lemma posBook_process_buffer :
    ∀ (us : List DepthUpdate) (s : OrderBookState), posBook s →
      posBook (s.process_buffer us).1 := by
  intro us
  induction us with
  | nil => exact fun s hs => hs
  | cons u rest ih =>
    intro s hs
    rw [OrderBookState.process_buffer]
    split_ifs with h1 h2
    · exact ih s hs
    · rw [apply_update_changes_pair s u]
      exact ih _ (posBook_apply_update_changes hs u)
    · exact hs

lemma posBook_runOps :
    ∀ (ops : List BookOp) (s : OrderBookState), posBook s → posBook (runOps s ops) := by
  intro ops
  induction ops with
  | nil => exact fun s hs => hs
  | cons op rest ih =>
    intro s hs
    cases op with
    | snapshot snap now => exact ih _ (posBook_apply_snapshot s snap now)
    | update u => exact ih _ (posBook_process_update hs u)
    | buffer us => exact ih _ (posBook_process_buffer us s hs)

/-- C9: after any sequence of snapshot/update/buffer operations from the
fresh book every present level has strictly positive size; a zero-size
diff entry is exactly a removal, and removing an absent price is a
no-op. -/
theorem C9_positive_sizes :
    (∀ ops : List BookOp, posBook (runOps OrderBookState.default ops)) ∧
    (∀ (m : List (Price × Size)) (p : Price),
        applyDiff m { price := p, size := 0 } = mapRemove p m) ∧
    (∀ (m : List (Price × Size)) (p : Price),
        mapLookup p m = none → mapRemove p m = m) := by
  refine ⟨?_, ?_, ?_⟩
  · intro ops
    exact posBook_runOps ops OrderBookState.default ⟨posLadder_nil, posLadder_nil⟩
  · intro m p
    simp [applyDiff]
  · intro m p h
    exact mapRemove_absent m h

/-- C9 witness: the invariant on a concrete snapshot/update/buffer run and
the zero-size semantics at concrete inputs. -/
theorem C9_witness :
    posBook (runOps OrderBookState.default opsC9) ∧
    applyDiff [] { price := (5 : ℚ), size := 0 } = mapRemove 5 [] ∧
    mapRemove 3 ([] : List (Price × Size)) = [] :=
  ⟨C9_positive_sizes.1 opsC9, C9_positive_sizes.2.1 [] 5,
   C9_positive_sizes.2.2 [] 3 rfl⟩

lemma relative_imbalance_vwap_none {s : OrderBookState} {d : ℕ}
    (h : min s.bids.length s.asks.length < d) :
    s.relative_imbalance_vwap d = Except.ok none := by
  unfold OrderBookState.relative_imbalance_vwap
  rw [if_pos h]

/-- C5: the VWAP-based queries (`relative_book_imbalance`,
`relative_mid_price_imbalance`) return `None` whenever the requested depth
exceeds the levels available on either side, and
`weighted_relative_imbalance` never reaches a division by zero: it returns
`None` for depth 0 and otherwise always returns a result (`None` exactly
when the total weighted volume is zero).  `imbalance_depth` has no such
guard (see the counterexample). -/
theorem C5_depth_guards :
    (∀ (s : OrderBookState) (d : ℕ), min s.bids.length s.asks.length < d →
        s.relative_book_imbalance d = Except.ok none ∧
        s.relative_mid_price_imbalance d = Except.ok none) ∧
    (∀ (s : OrderBookState) (d : ℕ),
        (d = 0 → s.weighted_relative_imbalance d = Except.ok none) ∧
        ∃ r, s.weighted_relative_imbalance d = Except.ok r) := by
  constructor
  · intro s d hd
    constructor
    · unfold OrderBookState.relative_book_imbalance
      cases h1 : s.best_bid_calc with
      | none => rfl
      | some bb =>
        cases h2 : nthKey s.bids.reverse d with
        | none => rfl
        | some wb =>
          cases h3 : s.best_ask_calc with
          | none => rfl
          | some ba =>
            cases h4 : nthKey s.asks d with
            | none => rfl
            | some wa => rw [relative_imbalance_vwap_none hd]
    · unfold OrderBookState.relative_mid_price_imbalance
      cases h1 : s.mid_price_calc with
      | none => rfl
      | some mp => rw [relative_imbalance_vwap_none hd]
  · intro s d
    constructor
    · intro hd
      unfold OrderBookState.weighted_relative_imbalance
      rw [if_pos hd]
    · unfold OrderBookState.weighted_relative_imbalance
      dsimp only
      split_ifs with h1 h2
      · exact ⟨none, rfl⟩
      · exact ⟨none, rfl⟩
      · exact ⟨_, rfl⟩

/-- C5 counterexample: with exactly one level per side, `imbalance_depth 2`
returns a value instead of the empty result the claim demands, and on the
empty book `imbalance_depth 1` is a division by zero. -/
theorem C5_counterexample :
    bookC5.bids.length = 1 ∧ bookC5.asks.length = 1 ∧
    bookC5.imbalance_depth 2 = Except.ok (some (-(1 / 2))) ∧
    OrderBookState.default.imbalance_depth 1 = Except.error ("Division by zero") := by
  refine ⟨rfl, rfl, ?_, ?_⟩
  · norm_num [bookC5, OrderBookState.default, OrderBookState.imbalance_depth,
      decDiv, Except.map]
  · norm_num [OrderBookState.default, OrderBookState.imbalance_depth,
      decDiv, Except.map]

/-- C5 witness: the guards at depth 2 over the one-level book, the depth-0
guard, and a total result at depth 1. -/
theorem C5_witness :
    bookC5.relative_book_imbalance 2 = Except.ok none ∧
    bookC5.relative_mid_price_imbalance 2 = Except.ok none ∧
    bookC5.weighted_relative_imbalance 0 = Except.ok none ∧
    ∃ r, bookC5.weighted_relative_imbalance 1 = Except.ok r :=
  ⟨(C5_depth_guards.1 bookC5 2 (by decide)).1,
   (C5_depth_guards.1 bookC5 2 (by decide)).2,
   (C5_depth_guards.2 bookC5 0).1 rfl,
   (C5_depth_guards.2 bookC5 1).2⟩

lemma sqrtD_zero : sqrtD 0 = some 0 := by
  norm_num [sqrtD, Rat.sqrt, Int.sqrt]

lemma update_trades (rt : RecentTrades) (t : Trade) :
    (rt.update t).trades =
      (t, rt.calculate_returns t) ::
        (if rt.trades.length = rt.window_size then rt.trades.dropLast
         else rt.trades) := rfl

lemma update_window (rt : RecentTrades) (t : Trade) :
    (rt.update t).window_size = rt.window_size := rfl

lemma update_volatility_eq (rt : RecentTrades) (t : Trade) :
    (rt.update t).volatility = (rt.update t).calculate_volatility := rfl

lemma update_length {rt : RecentTrades} (hw : 1 ≤ rt.window_size)
    (h : rt.trades.length ≤ rt.window_size) (t : Trade) :
    (rt.update t).trades.length = min (rt.trades.length + 1) rt.window_size := by
  rw [update_trades]
  by_cases h1 : rt.trades.length = rt.window_size
  · rw [if_pos h1]
    simp only [List.length_cons, List.length_dropLast]
    omega
  · rw [if_neg h1]
    simp only [List.length_cons]
    omega

lemma update_many_le (w : ℕ) (hw : 1 ≤ w) :
    ∀ (ts : List Trade) (rt : RecentTrades), rt.window_size = w →
      rt.trades.length ≤ w →
      (rt.update_many ts).window_size = w ∧ (rt.update_many ts).trades.length ≤ w := by
  intro ts
  induction ts with
  | nil => exact fun rt h1 h2 => ⟨h1, h2⟩
  | cons t rest ih =>
    intro rt h1 h2
    have step : rt.update_many (t :: rest) = (rt.update t).update_many rest := rfl
    rw [step]
    have hlen : (rt.update t).trades.length = min (rt.trades.length + 1) rt.window_size :=
      update_length (h1.symm ▸ hw) (h1.symm ▸ h2) t
    exact ih (rt.update t) (by rw [update_window, h1]) (by rw [hlen]; omega)

lemma calculate_returns_const {rt : RecentTrades} {t : Trade}
    (h : ∀ e ∈ rt.trades, e.1 = t) : rt.calculate_returns t = 0 := by
  unfold RecentTrades.calculate_returns
  cases htr : rt.trades with
  | nil => rfl
  | cons e tl =>
    have he : e.1 = t := (h e (htr ▸ List.mem_cons_self e tl))
    simp only [List.head?_cons, he, checked_div, sub_self]
    split_ifs with hp
    · rfl
    · simp

lemma update_const_inv {rt : RecentTrades} {t : Trade}
    (h : ∀ e ∈ rt.trades, e.1 = t ∧ e.2 = 0) :
    ∀ e ∈ (rt.update t).trades, e.1 = t ∧ e.2 = 0 := by
  intro e he
  rw [update_trades] at he
  rcases List.mem_cons.mp he with h1 | h1
  · rw [h1]
    exact ⟨rfl, calculate_returns_const (fun e' he' => (h e' he').1)⟩
  · have : e ∈ rt.trades := by
      by_cases hc : rt.trades.length = rt.window_size
      · rw [if_pos hc] at h1
        exact List.dropLast_subset _ h1
      · rw [if_neg hc] at h1
        exact h1
    exact h e this

lemma update_many_const_inv {t : Trade} :
    ∀ (n : ℕ) (rt : RecentTrades), (∀ e ∈ rt.trades, e.1 = t ∧ e.2 = 0) →
      ∀ e ∈ (rt.update_many (List.replicate n t)).trades, e.1 = t ∧ e.2 = 0 := by
  intro n
  induction n with
  | zero => exact fun rt h => h
  | succ m ih =>
    intro rt h
    have step : rt.update_many (List.replicate (m + 1) t) =
        (rt.update t).update_many (List.replicate m t) := rfl
    rw [step]
    exact ih (rt.update t) (update_const_inv h)

lemma update_many_const_length {t : Trade} {w : ℕ} (hw : 1 ≤ w) :
    ∀ (n : ℕ) (rt : RecentTrades), rt.window_size = w → rt.trades.length ≤ w →
      (rt.update_many (List.replicate n t)).window_size = w ∧
      (rt.update_many (List.replicate n t)).trades.length =
        min (rt.trades.length + n) w := by
  intro n
  induction n with
  | zero =>
    intro rt h1 h2
    have step : rt.update_many (List.replicate 0 t) = rt := rfl
    rw [step]
    exact ⟨h1, by omega⟩
  | succ m ih =>
    intro rt h1 h2
    have step : rt.update_many (List.replicate (m + 1) t) =
        (rt.update t).update_many (List.replicate m t) := rfl
    rw [step]
    have hlen : (rt.update t).trades.length = min (rt.trades.length + 1) rt.window_size :=
      update_length (h1.symm ▸ hw) (h1.symm ▸ h2) t
    rw [h1] at hlen
    obtain ⟨ha, hb⟩ := ih (rt.update t) (by rw [update_window, h1]) (by rw [hlen]; omega)
    refine ⟨ha, ?_⟩
    rw [hb, hlen]
    omega

lemma update_many_vol_eq :
    ∀ (l : List Trade) (rt : RecentTrades),
      rt.volatility = rt.calculate_volatility →
      (rt.update_many l).volatility = (rt.update_many l).calculate_volatility := by
  intro l
  induction l with
  | nil => exact fun rt h => h
  | cons a rest ih =>
    intro rt _
    have step : rt.update_many (a :: rest) = (rt.update a).update_many rest := rfl
    rw [step]
    exact ih (rt.update a) (update_volatility_eq rt a)

lemma calculate_volatility_zero {rt : RecentTrades}
    (h2 : 2 ≤ rt.trades.length) (hz : ∀ e ∈ rt.trades, e.2 = 0) :
    rt.calculate_volatility = some 0 := by
  simp only [RecentTrades.calculate_volatility]
  rw [if_neg (by omega)]
  have hsumall : (rt.trades.map Prod.snd).sum = 0 :=
    List.sum_eq_zero (fun x hx => by
      obtain ⟨e, he, rfl⟩ := List.mem_map.mp hx
      exact hz e he)
  simp only [hsumall, zero_div]
  have hsumtake : ∀ k : ℕ,
      ((rt.trades.take k).map (fun tr => (tr.2 - (0 : ℚ)) ^ 2)).sum = 0 := by
    intro k
    apply List.sum_eq_zero
    intro x hx
    obtain ⟨e, he, rfl⟩ := List.mem_map.mp hx
    rw [hz e (List.mem_of_mem_take he)]
    norm_num
  rw [hsumtake, zero_div, sqrtD_zero]

lemma calculate_volatility_spec {rt : RecentTrades} (h : 2 ≤ rt.trades.length) :
    rt.calculate_volatility =
      sqrtD (recentMeanSquaredDeviation (rt.trades.map Prod.snd) rt.window_size) := by
  simp only [RecentTrades.calculate_volatility, recentMeanSquaredDeviation,
    List.length_map, ← List.map_take, List.map_map]
  rw [if_neg (by omega)]
  rfl

/-- C6: volatility is `None` below two trades; otherwise it is the square
root of the mean squared deviation of the most recent
`min(count, ceil(0.3 * window_size))` returns from the mean of ALL
buffered returns, divided by the sub-window count; and inserting `n >= 2`
trades at an identical price into a window of size `>= 2` yields
volatility 0. -/
theorem C6_volatility :
    (∀ rt : RecentTrades, rt.trades.length < 2 → rt.calculate_volatility = none) ∧
    (∀ rt : RecentTrades, 2 ≤ rt.trades.length →
        rt.calculate_volatility =
          sqrtD (recentMeanSquaredDeviation (rt.trades.map Prod.snd) rt.window_size)) ∧
    (∀ (w n : ℕ) (t : Trade), 2 ≤ w → 2 ≤ n →
        ((RecentTrades.new w).update_many (List.replicate n t)).volatility = some 0) := by
  refine ⟨?_, ?_, ?_⟩
  · intro rt h
    simp only [RecentTrades.calculate_volatility]
    rw [if_pos h]
  · intro rt h
    exact calculate_volatility_spec h
  · intro w n t hw hn
    obtain ⟨m, rfl⟩ : ∃ m, n = m + 1 := ⟨n - 1, by omega⟩
    have hwneq : ¬ ((RecentTrades.new w).trades.length = (RecentTrades.new w).window_size) := by
      simp only [RecentTrades.new, List.length_nil]
      omega
    have h1 : ((RecentTrades.new w).update t).trades = [(t, 0)] := by
      rw [update_trades, if_neg hwneq]
      rfl
    have hzero : ∀ e ∈ ((RecentTrades.new w).update t).trades, e.1 = t ∧ e.2 = 0 := by
      intro e he
      rw [h1] at he
      simp only [List.mem_singleton] at he
      rw [he]
      exact ⟨rfl, rfl⟩
    have hlen1 : ((RecentTrades.new w).update t).trades.length = 1 := by
      rw [h1]
      rfl
    obtain ⟨hwinf, hlenf⟩ := update_many_const_length (t := t) (by omega : 1 ≤ w) m
      ((RecentTrades.new w).update t) rfl (by omega)
    have step : (RecentTrades.new w).update_many (List.replicate (m + 1) t) =
        ((RecentTrades.new w).update t).update_many (List.replicate m t) := rfl
    rw [step, update_many_vol_eq (List.replicate m t) _ (update_volatility_eq _ t)]
    apply calculate_volatility_zero
    · rw [hlenf, hlen1]
      omega
    · exact fun e he => (update_many_const_inv m _ hzero e he).2

/-- C6 counterexample: four trades with a constant 10 percent return into
a window of 10 give volatility `1/40`, while the sample standard deviation
of the returns in the recent sub-window (the three most recent returns,
all equal) is 0 — the cached volatility is not the sample standard
deviation over the sub-window, because the mean is taken over the whole
buffer and the divisor is the sub-window count. -/
theorem C6_counterexample :
    rtC6.volatility = some (1 / 40) ∧
    sampleStdDev ((rtC6.trades.map Prod.snd).take 3) = some 0 := by
  have htr : rtC6.trades =
      [(tradeAt (1331 / 10), 1 / 10), (tradeAt 121, 1 / 10),
       (tradeAt 110, 1 / 10), (tradeAt 100, 0)] := by
    norm_num [rtC6, RecentTrades.update_many, RecentTrades.update, RecentTrades.new,
      RecentTrades.calculate_returns, checked_div, tradeAt]
  have hvol : rtC6.volatility = rtC6.calculate_volatility := by
    have hsplit : rtC6 = ((RecentTrades.new 10).update (tradeAt 100)).update_many
        [tradeAt 110, tradeAt 121, tradeAt (1331 / 10)] := rfl
    rw [hsplit]
    exact update_many_vol_eq _ _ (update_volatility_eq _ _)
  constructor
  · rw [hvol]
    have htake : ∀ a b c d : ℚ, List.take (Int.toNat 3) [a, b, c, d] = [a, b, c] :=
      fun a b c d => rfl
    norm_num [RecentTrades.calculate_volatility, htr,
      (show rtC6.window_size = 10 from rfl), decCeil, sqrtD, Rat.sqrt, Int.sqrt,
      tradeAt, htake]
  · rw [htr]
    norm_num [sampleStdDev, sqrtD, Rat.sqrt, Int.sqrt]

/-- C6 witness: the empty-window guard, the sub-window formula on the
concrete four-trade window, and zero volatility for three identical-price
trades. -/
theorem C6_witness :
    RecentTrades.calculate_volatility (RecentTrades.new 3) = none ∧
    rtC6.calculate_volatility =
      sqrtD (recentMeanSquaredDeviation (rtC6.trades.map Prod.snd) rtC6.window_size) ∧
    ((RecentTrades.new 2).update_many (List.replicate 3 (tradeAt 7))).volatility = some 0 :=
  ⟨C6_volatility.1 (RecentTrades.new 3) (by decide),
   C6_volatility.2.1 rtC6 (by decide),
   C6_volatility.2.2 2 3 (tradeAt 7) (by decide) (by decide)⟩

/-- C7: for a positive capacity the buffer never grows past it under any
update sequence; each update puts the new pair at the front and, exactly
at capacity, evicts the back entry; and the spec's six-price scenario into
a window of 5 ends newest-to-oldest as `[98, 102, 100, 99, 101]`. -/
theorem C7_window_eviction :
    (∀ (w : ℕ) (ts : List Trade), 1 ≤ w →
        ((RecentTrades.new w).update_many ts).trades.length ≤ w) ∧
    (∀ (rt : RecentTrades) (t : Trade),
        (rt.update t).trades =
          (t, rt.calculate_returns t) ::
            (if rt.trades.length = rt.window_size then rt.trades.dropLast
             else rt.trades)) ∧
    rtC7.trades.map (fun e => e.1.price) = [98, 102, 100, 99, 101] := by
  refine ⟨?_, ?_, ?_⟩
  · intro w ts hw
    exact (update_many_le w hw ts (RecentTrades.new w) rfl (by simp [RecentTrades.new])).2
  · exact update_trades
  · norm_num [rtC7, tradeAt, RecentTrades.update_many, RecentTrades.update,
      RecentTrades.new, RecentTrades.calculate_returns, checked_div]

/-- C7 counterexample: with capacity 0 the length check `len == window`
only fires on the first insert, so two inserts leave two entries — the
buffer exceeds its configured capacity. -/
theorem C7_counterexample :
    rtC7zero.window_size = 0 ∧ rtC7zero.trades.length = 2 := by
  constructor
  · rfl
  · rfl

/-- C7 witness: the capacity bound on a two-trade run in a window of 5,
and the front-insertion equation at a concrete window. -/
theorem C7_witness :
    ((RecentTrades.new 5).update_many [tradeAt 1, tradeAt 2]).trades.length ≤ 5 ∧
    ((RecentTrades.new 3).update (tradeAt 4)).trades =
      (tradeAt 4, (RecentTrades.new 3).calculate_returns (tradeAt 4)) ::
        (if (RecentTrades.new 3).trades.length = (RecentTrades.new 3).window_size
         then (RecentTrades.new 3).trades.dropLast
         else (RecentTrades.new 3).trades) :=
  ⟨C7_window_eviction.1 5 [tradeAt 1, tradeAt 2] (by decide),
   C7_window_eviction.2.1 (RecentTrades.new 3) (tradeAt 4)⟩

/-- C8: evaluating `check_order_fills` at a single qualifying fill
(buyer-is-market-maker trade at 90 against one active `Placed` order at
100): the order is moved to the filled history with a fill timestamp and
the k-factor becomes `max(0.1, 0.5 * (1 - 0.05)) = 0.475`, but
`successful_fill_count` rises by 2, not 1 — it is incremented once in the
detection loop and once more in the adjustment block. -/
theorem C8_fill_double_increment :
    (mmC8.check_order_fills trC8 7).1.successful_fill_count = 2 ∧
    (mmC8.check_order_fills trC8 7).1.current_k = 19 / 40 ∧
    (mmC8.check_order_fills trC8 7).1.active_orders = [] ∧
    (mmC8.check_order_fills trC8 7).1.filled_orders =
      [{ ordC8 with status := OrderStatus.Filled, filled_at := some 7 }] := by
  norm_num [mmC8, MarketMaker.new, MarketMakerConfig.default,
    MarketMaker.check_order_fills, MarketMaker.adjust_k_factor, ordC8, trC8,
    List.enum, List.enumFrom, List.filter, max_def, List.eraseIdx]
